import Mathlib

/-!
Verification development for the media symlink helper
(source: rename_and_symlink.py).

The Python source is shallowly embedded: pure helpers become Lean
functions over String / List Char; filesystem effects become explicit
traces of actions over an abstract destination state; Python truthiness
and the regular expressions used by the script are translated directly,
with each regex realised as an explicit backtracking matcher mirroring
the Python engine's leftmost, greedy-with-backtracking semantics.
Embedded names follow the source (clean_filename, make_symlink,
create_nfo_file, extract_release_date, process_file,
cleanup_broken_symlinks).
-/

namespace SymlinkHelper

/-! ### Python string primitives -/

/-- ASCII whitespace recognised by Python's str.strip and regex \s
(the scripts only ever see ASCII names; unicode whitespace is not
modelled). -/
def isPySpace (c : Char) : Bool :=
  c = ' ' ∨ c = '\t' ∨ c = '\n' ∨ c = '\r' ∨ c = '\x0b' ∨ c = '\x0c'

/-- Python str.strip(): drop leading and trailing whitespace. -/
def pyStrip (l : List Char) : List Char :=
  ((l.dropWhile isPySpace).reverse.dropWhile isPySpace).reverse

/-- Python str.lstrip with argument a single dot. -/
def pyLstripDot (s : String) : String :=
  String.mk (s.data.dropWhile (fun c => c = '.'))

/-- ASCII lower-casing of a single character (Python str.lower on the
ASCII names the script handles). -/
def pyLowerChar (c : Char) : Char :=
  if c.isUpper then Char.ofNat (c.toNat + 32) else c

/-- Python str.lower. -/
def pyLower (s : String) : String :=
  String.mk (s.data.map pyLowerChar)

/-- Python str.replace(old, new): replace every non-overlapping
occurrence, scanning left to right.  (Python treats an empty pattern
specially, inserting the replacement everywhere; that case is
unreachable here because the pattern is always a media file stem, and
this model returns the string unchanged for it.) -/
def pyReplace (pat rep : List Char) : List Char → List Char
  | [] => []
  | c :: rest =>
    if h : pat ≠ [] ∧ pat.isPrefixOf (c :: rest) then
      rep ++ pyReplace pat rep ((c :: rest).drop pat.length)
    else
      c :: pyReplace pat rep rest
termination_by l => l.length
decreasing_by
  all_goals simp only [List.length_drop, List.length_cons]
  · have hp : 0 < pat.length := List.length_pos.mpr h.1
    omega
  · omega

/-! ### clean_filename

The source:

  cleaned = re.sub(
    pattern with three alternatives, anchored at the start:
      bracketed   www host   then   spaces - spaces
      parenthesised www host then   spaces - spaces
      bare        www host   then   spaces - spaces
    , empty replacement, IGNORECASE)
  return cleaned.strip()

Each regex piece is realised explicitly; backtracking inside the host
character class (which itself contains the hyphen demanded later by the
separator) follows the Python engine's greedy-longest-first order. -/

/-- The regex class of word characters, dot and hyphen used for the
site host (ASCII \w plus dot and hyphen). -/
def isHostChar (c : Char) : Bool :=
  c.isAlpha ∨ c.isDigit ∨ c = '_' ∨ c = '.' ∨ c = '-'

/-- Greedy star over a character class with backtracking into the
continuation k, mirroring the regex engine: longest consumption is
tried first, shorter ones on failure. -/
def clsStarK (p : Char → Bool) (k : List Char → Option (List Char)) :
    List Char → Option (List Char)
  | [] => k []
  | c :: r =>
    match (if p c then clsStarK p k r else none) with
    | some res => some res
    | none => k (c :: r)

/-- Greedy plus over a character class (at least one character), with
backtracking into the continuation. -/
def clsPlusK (p : Char → Bool) (k : List Char → Option (List Char)) :
    List Char → Option (List Char)
  | [] => none
  | c :: r => if p c then clsStarK p k r else none

/-- Case-insensitive literal match (the regex is compiled with
IGNORECASE). -/
def litCI (c : Char) (l : List Char) : Option (List Char) :=
  match l with
  | [] => none
  | x :: r => if pyLowerChar x = pyLowerChar c then some r else none

/-- The shared separator tail of the release-tag pattern:
spaces star, a hyphen, spaces star (deterministic because a hyphen is
not whitespace). -/
def sepTail (l : List Char) : Option (List Char) :=
  match l.dropWhile isPySpace with
  | '-' :: r => some (r.dropWhile isPySpace)
  | _ => none

/-- Literal "www." (case-insensitively) followed by the host class. -/
def wwwHost (k : List Char → Option (List Char)) (l : List Char) :
    Option (List Char) :=
  match litCI 'w' l with
  | none => none
  | some l1 =>
    match litCI 'w' l1 with
    | none => none
    | some l2 =>
      match litCI 'w' l2 with
      | none => none
      | some l3 =>
        match l3 with
        | '.' :: l4 => clsPlusK isHostChar k l4
        | _ => none

/-- First alternative: bracketed host, then the separator. -/
def altBracket (l : List Char) : Option (List Char) :=
  match l with
  | '[' :: l1 =>
    wwwHost
      (fun l2 =>
        match l2.dropWhile isPySpace with
        | ']' :: l3 => sepTail l3
        | _ => none)
      (l1.dropWhile isPySpace)
  | _ => none

/-- Second alternative: parenthesised host, then the separator. -/
def altParen (l : List Char) : Option (List Char) :=
  match l with
  | '(' :: l1 =>
    wwwHost
      (fun l2 =>
        match l2.dropWhile isPySpace with
        | ')' :: l3 => sepTail l3
        | _ => none)
      (l1.dropWhile isPySpace)
  | _ => none

/-- Third alternative: a bare host, then the separator. -/
def altBare (l : List Char) : Option (List Char) :=
  wwwHost sepTail l

/-- The anchored release-tag match: the three alternatives in the
source order, returning the remainder of the string after the matched
prefix (re.sub with an anchored pattern removes exactly this prefix,
at most once). -/
def stripTag (l : List Char) : Option (List Char) :=
  match altBracket l with
  | some r => some r
  | none =>
    match altParen l with
    | some r => some r
    | none => altBare l

/-- clean_filename from the source: strip a leading release tag, then
str.strip the result. -/
def clean_filename (s : String) : String :=
  match stripTag s.data with
  | some rest => String.mk (pyStrip rest)
  | none => String.mk (pyStrip s.data)

/-! ### Episode title derivation

In the episode branch the source derives the show title from the
parent folder name:

  title = clean_filename(parent folder name)
  title = re.sub(season-batch annotation "spaces S two-digits spaces -
                 spaces EP( non-parens ) rest-of-line",
                 empty, title, IGNORECASE)
  title = re.sub("spaces ( four digits ) rest-of-line", empty, title)
  title = title.strip()

Both substituted patterns end by consuming the rest of the line, so a
substitution truncates the string at the leftmost match position. -/

/-- Does the season-batch annotation match at this position?  Mirrors
the pattern: spaces star, S or s, exactly two digits, spaces star,
hyphen, spaces star, EP case-insensitively, an opening paren, one or
more non-close-paren characters, a close paren (the trailing
rest-of-line part always matches on the newline-free names the script
sees). -/
def seasonTagAt (l : List Char) : Bool :=
  match l.dropWhile isPySpace with
  | s :: d1 :: d2 :: r =>
    if (s = 'S' ∨ s = 's') ∧ d1.isDigit ∧ d2.isDigit then
      match r.dropWhile isPySpace with
      | '-' :: r2 =>
        match r2.dropWhile isPySpace with
        | e :: p :: '(' :: r3 =>
          if (e = 'E' ∨ e = 'e') ∧ (p = 'P' ∨ p = 'p') then
            match r3 with
            | x :: r4 =>
              x ≠ ')' ∧ (r4.dropWhile (fun c => c ≠ ')')) ≠ []
            | [] => false
          else false
        | _ => false
      | _ => false
    else false
  | _ => false

/-- Truncate at the leftmost position where the season-batch
annotation matches (re.sub of a rest-of-line pattern with the empty
replacement keeps exactly the prefix before the leftmost match). -/
def subSeasonTag : List Char → List Char
  | [] => []
  | c :: rest => if seasonTagAt (c :: rest) then [] else c :: subSeasonTag rest

/-- Does the trailing-year annotation (spaces star, parenthesised four
digits) match at this position? -/
def yearTagAt (l : List Char) : Bool :=
  match l.dropWhile isPySpace with
  | '(' :: d1 :: d2 :: d3 :: d4 :: ')' :: _ =>
    d1.isDigit ∧ d2.isDigit ∧ d3.isDigit ∧ d4.isDigit
  | _ => false

/-- Truncate at the leftmost position where the year annotation
matches. -/
def subYearTag : List Char → List Char
  | [] => []
  | c :: rest => if yearTagAt (c :: rest) then [] else c :: subYearTag rest

/-- The show title derived from the parent folder name, exactly as in
the episode branch of process_file. -/
def derivedTitle (parentName : String) : String :=
  String.mk (pyStrip (subYearTag (subSeasonTag (clean_filename parentName).data)))

/-! ### The S..E.. regex fallback

re.search of: S or s, one-or-two digits, E or e, one-or-two digits.
re.search scans positions left to right; within a position the
two-digit reading of each group is tried before the one-digit one. -/

/-- Numeric value of a decimal digit character as an integer. -/
def digitVal (c : Char) : Int :=
  Int.ofNat (c.toNat - 48)

/-- Match "E-or-e then one-or-two digits" at the head of the list,
returning the episode number (two digits preferred, as the greedy
quantifier does). -/
def matchEps (l : List Char) : Option Int :=
  match l with
  | e :: d1 :: d2 :: _ =>
    if (e = 'E' ∨ e = 'e') ∧ d1.isDigit then
      some (if d2.isDigit then 10 * digitVal d1 + digitVal d2 else digitVal d1)
    else none
  | [e, d1] =>
    if (e = 'E' ∨ e = 'e') ∧ d1.isDigit then some (digitVal d1) else none
  | _ => none

/-- Match the whole pattern at the head of the list: S-or-s, then the
season digits (two-digit reading first, backtracking to one digit when
the episode part fails to follow), then the episode part. -/
def seAt (l : List Char) : Option (Int × Int) :=
  match l with
  | s :: d1 :: tail =>
    if (s = 'S' ∨ s = 's') ∧ d1.isDigit then
      match tail with
      | d2 :: tail2 =>
        if d2.isDigit then
          match matchEps tail2 with
          | some e => some (10 * digitVal d1 + digitVal d2, e)
          | none =>
            match matchEps tail with
            | some e => some (digitVal d1, e)
            | none => none
        else
          match matchEps tail with
          | some e => some (digitVal d1, e)
          | none => none
      | [] => none
    else none
  | _ => none

/-- re.search: leftmost position at which the pattern matches. -/
def searchSE : List Char → Option (Int × Int)
  | [] => none
  | c :: rest =>
    match seAt (c :: rest) with
    | some r => some r
    | none => searchSE rest

/-! ### Episode resolution (the episode branch of process_file)

The external parser's season and episode fields are duck-typed: absent,
a scalar int, or a list of ints. -/

/-- A loosely-typed numeric field of the external guess. -/
inductive PyNum where
  | absent : PyNum
  | int : Int → PyNum
  | list : List Int → PyNum
deriving DecidableEq, Repr

/-- season = season[0] when the guess's season is a list.  (Python
would raise IndexError on an empty list; the external parser never
produces one and no theorem below exercises that case.) -/
def collapsedSeason : PyNum → Option Int
  | .absent => none
  | .int n => some n
  | .list [] => none
  | .list (n :: _) => some n

/-- episode_list: a list is used as-is, a scalar is wrapped, anything
else gives the empty list. -/
def collapsedEpisodes : PyNum → List Int
  | .absent => []
  | .int n => [n]
  | .list l => l

/-- Python truthiness of the season value: None and 0 are falsy. -/
def truthySeason : Option Int → Bool
  | none => false
  | some n => n ≠ 0

/-- Season and episode list after the regex fallback: the fallback
fires exactly when "not (season and episode_list)" holds, and a match
overwrites both fields. -/
def finalSeasonEps (rawName : String) (season episode : PyNum) :
    Option Int × List Int :=
  let s0 := collapsedSeason season
  let eps0 := collapsedEpisodes episode
  if truthySeason s0 ∧ eps0 ≠ [] then (s0, eps0)
  else
    match searchSE rawName.data with
    | some (ss, ee) => (some ss, [ee])
    | none => (s0, eps0)

/-- Result of the episode branch's validation. -/
inductive EpResult where
  | rejected : EpResult
  | accepted : String → Int → List Int → EpResult
deriving DecidableEq, Repr

/-- The episode identity resolution of process_file: derive the title
from the parent folder, normalise season/episode, apply the regex
fallback, then reject unless "title and season and episode_list" is
truthy. -/
def resolveEpisode (parentName rawName : String) (season episode : PyNum) :
    EpResult :=
  match finalSeasonEps rawName season episode with
  | (some n, eps) =>
    if derivedTitle parentName ≠ "" ∧ n ≠ 0 ∧ eps ≠ [] then
      .accepted (derivedTitle parentName) n eps
    else .rejected
  | (none, _) => .rejected

/-! ### The symlink provisioner (make_symlink)

A destination path is either absent, occupied by a real (non-symlink)
entry, or a symlink storing a resolved target path.  Path.exists()
follows symlinks, so a symlink "exists" exactly when its target does;
whether a target path currently exists is supplied by the oracle
`alive`.  Path strings are taken as already resolved, so the source's
resolve() comparison becomes string equality.  Filesystem effects are
recorded as a trace of actions; mkdirOk and linkOk say whether
os.makedirs and Path.symlink_to succeed (failure of the former raises
an uncaught exception, failure of the latter is caught by the source's
try/except). -/

/-- The state of one destination path. -/
inductive DestState where
  | absent : DestState
  | nonSymlink : DestState
  | symlinkTo : String → DestState
deriving DecidableEq, Repr

/-- One recorded filesystem mutation.  writeNfo carries the aired /
premiered date the sidecar received (none when the source writes no
date tag). -/
inductive FsAction where
  | mkdirs : String → FsAction
  | writeNfo : String → Option String → FsAction
  | unlink : String → FsAction
  | symlink : String → String → FsAction
deriving DecidableEq, Repr

/-- How one make_symlink call ended.  aborted means an uncaught
exception (os.makedirs failed outside the try block). -/
inductive LinkOutcome where
  | created : LinkOutcome
  | alreadyCorrect : LinkOutcome
  | replacedStale : LinkOutcome
  | conflictSkipped : LinkOutcome
  | createFailed : LinkOutcome
  | aborted : LinkOutcome
deriving DecidableEq, Repr

/-- Outcome, final state of the destination path, and the actions
performed (in order), for one make_symlink call. -/
structure LinkReport where
  outcome : LinkOutcome
  final : DestState
  actions : List FsAction
deriving DecidableEq, Repr

/-- make_symlink from the source.  src is the resolved source path,
dst the destination path, parent its parent directory.

  if exists(dst):                       absent is false; a symlink
                                        exists iff its target is alive
    if is_symlink(dst):
      if resolve(dst) == resolve(src):  skip (already correct)
      else: unlink(dst); fall through
    else: skip (conflict, refuse to touch)
  makedirs(parent)                      NOT inside the try: failure
                                        raises out of the function
  try: symlink_to(...)                  over a dangling symlink this
  except: log error                     raises FileExistsError, caught
-/
def make_symlink (src dst parent : String) (st : DestState)
    (alive : String → Bool) (mkdirOk linkOk : Bool) : LinkReport :=
  match st with
  | .nonSymlink => ⟨.conflictSkipped, st, []⟩
  | .symlinkTo t =>
    if alive t then
      if t = src then ⟨.alreadyCorrect, st, []⟩
      else
        if mkdirOk then
          if linkOk then
            ⟨.replacedStale, .symlinkTo src,
              [.unlink dst, .mkdirs parent, .symlink src dst]⟩
          else ⟨.createFailed, .absent, [.unlink dst, .mkdirs parent]⟩
        else ⟨.aborted, .absent, [.unlink dst]⟩
    else
      if mkdirOk then ⟨.createFailed, st, [.mkdirs parent]⟩
      else ⟨.aborted, st, []⟩
  | .absent =>
    if mkdirOk then
      if linkOk then ⟨.created, .symlinkTo src, [.mkdirs parent, .symlink src dst]⟩
      else ⟨.createFailed, .absent, [.mkdirs parent]⟩
    else ⟨.aborted, .absent, []⟩

/-! ### Sidecar metadata (create_nfo_file, extract_release_date) -/

/-- extract_release_date: the guess's date when truthy (non-empty),
otherwise the current date. -/
def extract_release_date (date : Option String) (today : String) : String :=
  match date with
  | some d => if d = "" then today else d
  | none => today

/-- Python truthiness of an optional string. -/
def truthyStr : Option String → Bool
  | none => false
  | some s => s ≠ ""

/-- Python truthiness of an optional year. -/
def truthyYear : Option Int → Bool
  | none => false
  | some y => y ≠ 0

/-- Rendering of the year field: info.get("year", "") prints as the
empty string when absent. -/
def yearStr : Option Int → String
  | none => ""
  | some y => toString y

/-- The date create_nfo_file writes into the aired / premiered /
releasedate tags: "if release_date or year: release_date if
release_date else year-01-01", and no tag at all otherwise. -/
def nfoDateToUse (rd : Option String) (year : Option Int) : Option String :=
  if truthyStr rd then rd
  else if truthyYear year then some (yearStr year ++ "-01-01")
  else none

/-- Zero-padded two-digit formatting (Python {n:02}). -/
def fmt2 (n : Int) : String :=
  if 0 ≤ n ∧ n < 10 then "0" ++ toString n else toString n

/-- Episode NFO file name: "title - SssEee.nfo". -/
def epNfoName (title : String) (season e : Int) : String :=
  title ++ " - S" ++ fmt2 season ++ "E" ++ fmt2 e ++ ".nfo"

/-- The per-episode NFO writes (one per episode number, skipping those
whose open-and-write fails, which the source catches per file). -/
def epNfoWrites (writeOk : String → Bool) (folder title : String)
    (season : Int) (aired : Option String) : List Int → List FsAction
  | [] => []
  | e :: rest =>
    (if writeOk (folder ++ "/" ++ epNfoName title season e) then
      [FsAction.writeNfo (folder ++ "/" ++ epNfoName title season e) aired]
    else []) ++ epNfoWrites writeOk folder title season aired rest

/-- create_nfo_file: ensure the folder exists (uncaught on failure,
modelled as none), then write one episode NFO per episode number when
both season and episode_list were passed, else one movie NFO. -/
def create_nfo_file (mkdirOk writeOk : String → Bool) (folder title : String)
    (year : Option Int) (season : Option Int) (episode_list : Option (List Int))
    (release_date : Option String) : Option (List FsAction) :=
  if mkdirOk folder then
    some (FsAction.mkdirs folder ::
      match season, episode_list with
      | some s, some eps =>
        epNfoWrites writeOk folder title s (nfoDateToUse release_date year) eps
      | _, _ =>
        let p := folder ++ "/" ++ title ++ " (" ++ yearStr year ++ ").nfo"
        if writeOk p then [FsAction.writeNfo p (nfoDateToUse release_date year)]
        else [])
  else none

/-! ### process_file

Inputs: the file reference (stem, suffix, parent folder name, whether
the parent is the source root) and the external parser's guess for the
cleaned name (an opaque collaborator, so its output is an input here).
The environment supplies the oracles: destination path states, target
liveness, mkdir / write / link success, the subtitle files found next
to the media file (find_matching_subtitles reads the source directory,
so its result is environment data), and the current date.

The result is none when an uncaught exception aborts the scan, and
otherwise the outcome together with the ordered action trace. -/

/-- The allowed media extensions of the source. -/
def mediaExtensions : List String :=
  [".mkv", ".mp4", ".avi", ".mov", ".flv", ".wmv", ".mp3", ".aac", ".flac", ".wav"]

/-- External parser output (every field optional / loosely typed). -/
structure Guess where
  gtype : Option String
  title : Option String
  year : Option Int
  season : PyNum
  episode : PyNum
  date : Option String

/-- One source media file as the pipeline sees it. -/
structure FileInput where
  stem : String
  suffix : String
  parentName : String
  parentIsSource : Bool
  guess : Guess

/-- filepath.name. -/
def FileInput.name (f : FileInput) : String := f.stem ++ f.suffix

/-- One subtitle file found beside the media file: its resolved path
and its stem / suffix. -/
structure SubFile where
  path : String
  stem : String
  suffix : String

/-- The environment of one process_file run. -/
structure Env where
  destBase : String
  destState : String → DestState
  alive : String → Bool
  mkdirOk : String → Bool
  writeOk : String → Bool
  linkOk : String → Bool
  subs : List SubFile
  today : String

/-- One make_symlink call against the environment. -/
def linkOne (env : Env) (src dst parent : String) : LinkReport :=
  make_symlink src dst parent (env.destState dst) env.alive
    (env.mkdirOk parent) (env.linkOk dst)

/-- Destination file name of a subtitle: the media base name plus, for
a language-tagged subtitle, the tag (the source computes the tag by
deleting the media stem from the subtitle stem and stripping leading
dots). -/
def subTargetName (base mediaStem : String) (sub : SubFile) : String :=
  if sub.stem = mediaStem then base ++ sub.suffix
  else
    base ++ "." ++
      pyLstripDot (String.mk (pyReplace mediaStem.data [] sub.stem.data)) ++
      sub.suffix

/-- The subtitle loop at the end of process_file: one make_symlink per
subtitle; an aborted link aborts the whole run. -/
def processSubs (env : Env) (folder base mediaStem : String) :
    List SubFile → Option (List FsAction)
  | [] => some []
  | s :: rest =>
    let dst := folder ++ "/" ++ subTargetName base mediaStem s
    let rep := linkOne env s.path dst folder
    if rep.outcome = .aborted then none
    else
      match processSubs env folder base mediaStem rest with
      | none => none
      | some acts => some (rep.actions ++ acts)

/-- How one process_file run ended (when it did not abort). -/
inductive ProcOutcome where
  | unsupported : ProcOutcome
  | noTitle : ProcOutcome
  | incompleteEpisode : ProcOutcome
  | unknownType : ProcOutcome
  | done : ProcOutcome
deriving DecidableEq, Repr

/-- The shared tail of both accepted branches: NFO creation, the main
symlink, then the subtitle symlinks. -/
def provisionTail (env : Env) (srcPath folder targetName base mediaStem : String)
    (nfo : Option (List FsAction)) : Option (ProcOutcome × List FsAction) :=
  match nfo with
  | none => none
  | some nfoActs =>
    let dst := folder ++ "/" ++ targetName
    let rep := linkOne env srcPath dst folder
    if rep.outcome = .aborted then none
    else
      match processSubs env folder base mediaStem env.subs with
      | none => none
      | some subActs => some (.done, nfoActs ++ rep.actions ++ subActs)

/-- process_file from the source (srcPath is the file's resolved
path). -/
def process_file (env : Env) (f : FileInput) (srcPath : String) :
    Option (ProcOutcome × List FsAction) :=
  if pyLower f.suffix ∈ mediaExtensions then
    let rd := extract_release_date f.guess.date env.today
    if f.guess.gtype = some "movie" then
      match f.guess.title with
      | none => some (.noTitle, [])
      | some t =>
        if t = "" then some (.noTitle, [])
        else
          let base := t ++ " (" ++ yearStr f.guess.year ++ ")"
          let folder := env.destBase ++ "/movies/" ++ base
          provisionTail env srcPath folder (base ++ f.suffix) base f.stem
            (create_nfo_file env.mkdirOk env.writeOk folder t f.guess.year
              none none (some rd))
    else if f.guess.gtype = some "episode" ∨ f.parentIsSource = false then
      match resolveEpisode f.parentName f.name f.guess.season f.guess.episode with
      | .rejected => some (.incompleteEpisode, [])
      | .accepted t s eps =>
        let epsStr := String.intercalate "-" (eps.map (fun e => "E" ++ fmt2 e))
        let base := t ++ " - S" ++ fmt2 s ++ epsStr
        let folder := env.destBase ++ "/tvshows/" ++ t ++ "/Season " ++ fmt2 s
        provisionTail env srcPath folder (base ++ f.suffix) base f.stem
          (create_nfo_file env.mkdirOk env.writeOk folder t f.guess.year
            (some s) (some eps) (some rd))
    else some (.unknownType, [])
  else some (.unsupported, [])

/-- The per-file loop of main: process each file in order; an uncaught
exception stops the loop (the Boolean records whether the scan
aborted, and aborted runs drop every later file). -/
def runScan (env : Env) : List (FileInput × String) →
    List (ProcOutcome × List FsAction) × Bool
  | [] => ([], false)
  | (f, p) :: rest =>
    match process_file env f p with
    | none => ([], true)
    | some r =>
      let t := runScan env rest
      (r :: t.1, t.2)

/-! ### cleanup_broken_symlinks

The destination tree is a forest of plain files, symlinks (with their
resolved target) and directories.  Symlink targets are taken to be
non-directories, matching the walk in the source, which only examines
symlinks appearing in the file lists.  The sweep is two passes:

  pass 1 (top-down): every symlink whose target does not exist is
  unlinked;
  pass 2 (bottom-up, deepest first, with a live emptiness check):
  every directory with no remaining entries is removed.

Removal order within pass 1 does not affect the final tree, so pass 1
is a structural filter; pass 2's deepest-first live check is exactly a
bottom-up structural prune.  The function below acts on the list of
entries of the swept root (the source may additionally remove the root
itself when it ends up empty; no claim concerns the root). -/

/-- An entry of the destination tree. -/
inductive DTree where
  | file : String → DTree
  | link : String → String → DTree
  | dir : String → List DTree → DTree

/-- Is this entry a symlink whose target no longer exists? -/
def isDeadLink (alive : String → Bool) : DTree → Bool
  | .link _ t => ¬ alive t
  | _ => false

mutual
/-- Pass 1 on a single surviving entry: recurse into directories. -/
def pass1T (alive : String → Bool) : DTree → DTree
  | .file n => .file n
  | .link n t => .link n t
  | .dir n cs => .dir n (pass1L alive cs)

/-- Pass 1 on an entry list: drop dead links, recurse into the rest. -/
def pass1L (alive : String → Bool) : List DTree → List DTree
  | [] => []
  | c :: cs =>
    (if isDeadLink alive c then [] else [pass1T alive c]) ++ pass1L alive cs
end

mutual
/-- Pass 2 on a single entry: a directory whose pruned entry list is
empty is removed (rmdir succeeds exactly on empty directories). -/
def pruneT : DTree → Option DTree
  | .file n => some (.file n)
  | .link n t => some (.link n t)
  | .dir n cs =>
    match pruneL cs with
    | [] => none
    | c :: rest => some (.dir n (c :: rest))

/-- Pass 2 on an entry list. -/
def pruneL : List DTree → List DTree
  | [] => []
  | c :: cs =>
    match pruneT c with
    | none => pruneL cs
    | some c2 => c2 :: pruneL cs
end

/-- One full sweep of cleanup_broken_symlinks over the root's
entries: pass 1 completes before pass 2 starts. -/
def cleanup_broken_symlinks (alive : String → Bool) (roots : List DTree) :
    List DTree :=
  pruneL (pass1L alive roots)

/-! ### Release-date resolution as the specification words it

Modelled from the spec: "use the external guess's date field if present
and non-empty; otherwise fabricate year-01-01 if year is known;
otherwise the current date at write time".  Stated from the spec's
words only, for comparison against the composed source behaviour. -/

/-- The spec's claimed resolution order for the sidecar date. -/
def specReleaseDate (date : Option String) (year : Option Int)
    (today : String) : String :=
  match date with
  | some d =>
    if d ≠ "" then d
    else
      match year with
      | some y => toString y ++ "-01-01"
      | none => today
  | none =>
    match year with
    | some y => toString y ++ "-01-01"
    | none => today

/-! ### Concrete instances used in witnesses and counterexamples -/

/-- An environment in which every filesystem operation succeeds and
every destination path is free. -/
def envAllOk : Env :=
  { destBase := "/dest", destState := fun _ => DestState.absent,
    alive := fun _ => true, mkdirOk := fun _ => true,
    writeOk := fun _ => true, linkOk := fun _ => true,
    subs := [], today := "2026-10-12" }

/-- As envAllOk, but every destination path is occupied by a real
(non-symlink) entry. -/
def envConflict : Env :=
  { envAllOk with destState := fun _ => DestState.nonSymlink }

/-- As envAllOk, but creating the movie folder of fMovieA fails. -/
def envMkdirFail : Env :=
  { envAllOk with mkdirOk := fun q => q ≠ "/dest/movies/A (2020)" }

/-- A movie file whose guess carries no date but a known year. -/
def fMovieA : FileInput :=
  { stem := "A.2020", suffix := ".mkv", parentName := "root",
    parentIsSource := true,
    guess := { gtype := some "movie", title := some "A", year := some 2020,
               season := PyNum.absent, episode := PyNum.absent, date := none } }

/-- A second, independent movie file. -/
def fMovieB : FileInput :=
  { stem := "B.2021", suffix := ".mkv", parentName := "root",
    parentIsSource := true,
    guess := { gtype := some "movie", title := some "B", year := some 2021,
               season := PyNum.absent, episode := PyNum.absent, date := none } }

/-- An episode file whose guess has no season or episode and whose
name matches no S..E.. pattern: its resolution is rejected. -/
def fEpReject : FileInput :=
  { stem := "Show.Name", suffix := ".mp4", parentName := "Show Name",
    parentIsSource := false,
    guess := { gtype := some "episode", title := some "X", year := none,
               season := PyNum.absent, episode := PyNum.absent, date := none } }

/-! ### Helper lemmas -/

/-- dropWhile is idempotent. -/
theorem dropWhile_idem (p : Char → Bool) (l : List Char) :
    (l.dropWhile p).dropWhile p = l.dropWhile p := by
  induction l with
  | nil => rfl
  | cons c cs ih =>
    by_cases h : p c = true
    · simp [List.dropWhile, h, ih]
    · simp [List.dropWhile, h]

/-- The head surviving dropWhile fails the predicate. -/
theorem head_dropWhile_false (p : Char → Bool) (l : List Char) :
    ∀ c cs, l.dropWhile p = c :: cs → p c = false := by
  induction l with
  | nil => intro c cs h; simp [List.dropWhile] at h
  | cons x xs ih =>
    intro c cs h
    by_cases hx : p x = true
    · exact ih c cs (by simpa [List.dropWhile, hx] using h)
    · simp [List.dropWhile, hx] at h
      rw [← h.1]
      simpa using hx

/-- dropWhile keeps the last element when it keeps anything. -/
theorem getLast?_dropWhile (p : Char → Bool) (l : List Char) :
    l.dropWhile p = [] ∨ (l.dropWhile p).getLast? = l.getLast? := by
  induction l with
  | nil => exact Or.inl rfl
  | cons c cs ih =>
    by_cases hc : p c = true
    · rcases h0 : cs.dropWhile p with _ | ⟨d, ds⟩
      · exact Or.inl (by rw [List.dropWhile_cons_of_pos hc, h0])
      · right
        rw [List.dropWhile_cons_of_pos hc]
        rcases ih with hi0 | hi1
        · rw [hi0] at h0; cases h0
        · rw [hi1]
          rcases hcse : cs with _ | ⟨x, xs⟩
          · rw [hcse] at h0; cases h0
          · exact (List.getLast?_cons_cons).symm
    · exact Or.inr (by rw [List.dropWhile_cons_of_neg (by simpa using hc)])

/-- A list whose head fails the predicate is untouched by dropWhile. -/
theorem dropWhile_of_head_false (p : Char → Bool) (l : List Char) (c : Char)
    (hh : l.head? = some c) (hc : p c = false) : l.dropWhile p = l := by
  cases l with
  | nil => rfl
  | cons x xs =>
    simp at hh
    subst hh
    exact List.dropWhile_cons_of_neg (by simp [hc])

/-- pyStrip is idempotent. -/
theorem pyStrip_idem (l : List Char) : pyStrip (pyStrip l) = pyStrip l := by
  unfold pyStrip
  set v := l.dropWhile isPySpace with hv
  set w := v.reverse.dropWhile isPySpace with hw
  have hstep1 : w.reverse.dropWhile isPySpace = w.reverse := by
    by_cases hwe : w = []
    · rw [hwe]; rfl
    · have hwlast : w.getLast? = v.head? := by
        rcases getLast?_dropWhile isPySpace v.reverse with h0 | h1
        · exact absurd (hw.trans h0) hwe
        · rw [← hw] at h1
          rw [h1, List.getLast?_reverse]
      have hvne : v ≠ [] := by
        intro hveq
        exact hwe (by rw [hw, hveq]; rfl)
      rcases hve : v with _ | ⟨d, ds⟩
      · exact absurd hve hvne
      · have hd : isPySpace d = false :=
          head_dropWhile_false isPySpace l d ds (by rw [← hv]; exact hve)
        have hwlast2 : w.getLast? = some d := by
          rw [hwlast, hve]; rfl
        have hhead : w.reverse.head? = some d := by
          rw [List.head?_reverse, hwlast2]
        exact dropWhile_of_head_false isPySpace w.reverse d hhead hd
  rw [hstep1, List.reverse_reverse]
  rw [hw, dropWhile_idem]

/-- make_symlink never records an NFO write. -/
theorem make_symlink_no_writeNfo (src dst parent : String) (st : DestState)
    (alive : String → Bool) (mkdirOk linkOk : Bool) (a : FsAction)
    (ha : a ∈ (make_symlink src dst parent st alive mkdirOk linkOk).actions) :
    ∀ q d, a ≠ FsAction.writeNfo q d := by
  intro q d hc
  subst hc
  cases st <;> cases mkdirOk <;> cases linkOk <;> unfold make_symlink at ha <;>
    (try split at ha) <;> (try split at ha) <;> (try split at ha) <;> simp_all

/-- make_symlink does not abort when its makedirs succeeds. -/
theorem make_symlink_not_aborted (src dst parent : String) (st : DestState)
    (alive : String → Bool) (linkOk : Bool) :
    (make_symlink src dst parent st alive true linkOk).outcome ≠ .aborted := by
  cases st <;> cases linkOk <;> unfold make_symlink <;>
    (try split) <;> (try split) <;> (try split) <;> simp_all

/-- What an accepted episode identity guarantees by construction. -/
theorem resolveEpisode_accepted (parentName rawName : String)
    (season episode : PyNum) (t : String) (s : Int) (eps : List Int)
    (h : resolveEpisode parentName rawName season episode = .accepted t s eps) :
    t ≠ "" ∧ s ≠ 0 ∧ eps ≠ [] ∧ t = derivedTitle parentName := by
  unfold resolveEpisode at h
  split at h
  next n eps1 heq =>
    by_cases hc : derivedTitle parentName ≠ "" ∧ n ≠ 0 ∧ eps1 ≠ []
    · rw [if_pos hc] at h
      injection h with h1 h2 h3
      subst h1; subst h2; subst h3
      exact ⟨hc.1, hc.2.1, hc.2.2, rfl⟩
    · rw [if_neg hc] at h
      simp at h
  next s1 eps1 heq => simp at h

/-- Pass 1 distributes over list append. -/
theorem pass1L_append (alive : String → Bool) (a b : List DTree) :
    pass1L alive (a ++ b) = pass1L alive a ++ pass1L alive b := by
  induction a with
  | nil => rfl
  | cons c cs ih => simp [pass1L, ih]

/-- Pass 2 distributes over list append. -/
theorem pruneL_append (a b : List DTree) :
    pruneL (a ++ b) = pruneL a ++ pruneL b := by
  induction a with
  | nil => rfl
  | cons c cs ih =>
    simp only [List.cons_append, pruneL]
    cases pruneT c <;> simp [ih]

/-- Pass 1 empties a list consisting solely of dead links. -/
theorem pass1L_all_dead (alive : String → Bool) (cs : List DTree)
    (h : ∀ c ∈ cs, isDeadLink alive c = true) : pass1L alive cs = [] := by
  induction cs with
  | nil => rfl
  | cons c rest ih =>
    have hc : isDeadLink alive c = true := h c (List.mem_cons_self c rest)
    simp only [pass1L, hc, if_pos, List.nil_append]
    exact ih fun x hx => h x (List.mem_cons_of_mem c hx)

/-! ### Claims -/

/-- C1: for every destination path occupied by a non-symlink entry (a
real file or directory), make_symlink refuses to touch it: the entry
is left unchanged, no unlink of it is performed, and the
conflict-skipped outcome is reported; and for any input, make_symlink
only ever unlinks paths that are (live) symlinks. -/
theorem C1_provisioner_never_touches_non_symlink (src dst parent : String)
    (st : DestState) (alive : String → Bool) (mkdirOk linkOk : Bool) :
    make_symlink src dst parent .nonSymlink alive mkdirOk linkOk =
      ⟨.conflictSkipped, .nonSymlink, []⟩ ∧
    (∀ q, FsAction.unlink q ∈
        (make_symlink src dst parent st alive mkdirOk linkOk).actions →
      ∃ t, st = .symlinkTo t) := by
  constructor
  · rfl
  · intro q hq
    cases st with
    | symlinkTo t => exact ⟨t, rfl⟩
    | nonSymlink => simp [make_symlink] at hq
    | absent =>
      cases mkdirOk <;> cases linkOk <;> unfold make_symlink at hq <;> simp at hq

/-- Witness for C1: a live mismatched symlink is a concrete input on
which an unlink is recorded, and the unlink hypothesis is discharged
there. -/
theorem C1_witness :
    make_symlink "/src/a" "/d/l" "/d" .nonSymlink (fun _ => true) true true =
      ⟨.conflictSkipped, .nonSymlink, []⟩ ∧
    ∃ t, DestState.symlinkTo "/d/old" = DestState.symlinkTo t :=
  ⟨(C1_provisioner_never_touches_non_symlink "/src/a" "/d/l" "/d"
      (.symlinkTo "/d/old") (fun _ => true) true true).1,
   (C1_provisioner_never_touches_non_symlink "/src/a" "/d/l" "/d"
      (.symlinkTo "/d/old") (fun _ => true) true true).2 "/d/l" (by decide)⟩

/-- Counterexample to C2 as stated: a dangling symlink (target does
not exist) pointing elsewhere is NOT replaced.  Path.exists() follows
the link and reports false, so the unlink branch is skipped and the
symlink_to call fails on the occupied path; the outcome is a creation
error and the dangling link stays in place, not replaced_stale. -/
theorem C2_counterexample :
    make_symlink "/src/a" "/d/l" "/d" (.symlinkTo "/d/gone")
        (fun _ => false) true true =
      ⟨.createFailed, .symlinkTo "/d/gone", [.mkdirs "/d"]⟩ ∧
    LinkOutcome.createFailed ≠ LinkOutcome.replacedStale := by
  refine ⟨by decide, by decide⟩

/-- C2 (amended): for every destination path holding a symlink whose
target exists and whose resolved target differs from the source's
resolved path, make_symlink unlinks the stale symlink and creates one
pointing at the source, reporting the replaced-stale outcome (when the
directory creation and link creation themselves succeed); a dangling
symlink instead stays in place and the creation attempt fails. -/
theorem C2_replaces_mismatched_live_symlink (src dst parent t : String)
    (alive : String → Bool) (hlive : alive t = true) (hne : t ≠ src) :
    make_symlink src dst parent (.symlinkTo t) alive true true =
      ⟨.replacedStale, .symlinkTo src,
        [.unlink dst, .mkdirs parent, .symlink src dst]⟩ ∧
    (alive t = false →
      make_symlink src dst parent (.symlinkTo t) alive true true =
        ⟨.createFailed, .symlinkTo t, [.mkdirs parent]⟩) := by
  constructor
  · simp [make_symlink, hlive, hne]
  · intro hdead
    rw [hlive] at hdead
    cases hdead

/-- Witness for C2: the replaced-stale equation at a concrete live
mismatched symlink. -/
theorem C2_witness :
    make_symlink "/src/a" "/d/l" "/d" (.symlinkTo "/d/old")
        (fun _ => true) true true =
      ⟨.replacedStale, .symlinkTo "/src/a",
        [.unlink "/d/l", .mkdirs "/d", .symlink "/src/a" "/d/l"]⟩ :=
  (C2_replaces_mismatched_live_symlink "/src/a" "/d/l" "/d" "/d/old"
    (fun _ => true) rfl (by decide)).1

/-- Counterexample to C3 as stated: clean_filename is not idempotent.
Leading whitespace blocks the anchored tag match on the first pass,
the strip then exposes the tag, and a second pass removes it. -/
theorem C3_counterexample :
    clean_filename (clean_filename " www.a.b - X") ≠
      clean_filename " www.a.b - X" := by decide

/-- C3 (amended): clean_filename never fails (it is total) and when no
release-tag pattern matches it returns the input merely trimmed of
surrounding whitespace; re-cleaning is the identity whenever the first
result does not itself start with a release tag — but full idempotence
fails (see the counterexample). -/
theorem C3_clean_filename_conditional_idempotence (s : String) :
    (stripTag s.data = none → clean_filename s = String.mk (pyStrip s.data)) ∧
    (stripTag (clean_filename s).data = none →
      clean_filename (clean_filename s) = clean_filename s) := by
  constructor
  · intro h
    unfold clean_filename
    rw [h]
  · intro h
    rcases hst : stripTag s.data with _ | r
    · conv_rhs => rw [clean_filename, hst]
      rw [clean_filename, h]
      rw [clean_filename, hst]
      exact congrArg String.mk (pyStrip_idem s.data)
    · conv_rhs => rw [clean_filename, hst]
      rw [clean_filename, h]
      rw [clean_filename, hst]
      exact congrArg String.mk (pyStrip_idem r)

/-- Witness for C3: the amended equations at concrete inputs. -/
theorem C3_witness :
    clean_filename "abc" = String.mk (pyStrip ("abc").data) ∧
    clean_filename (clean_filename "abc") = clean_filename "abc" :=
  ⟨(C3_clean_filename_conditional_idempotence "abc").1 (by decide),
   (C3_clean_filename_conditional_idempotence "abc").2 (by decide)⟩

/-- Counterexample to C6 as stated: season 0 is a present season value
and the episode list is non-empty and the derived title is non-empty,
yet the input is rejected — Python truthiness treats a present season
of 0 as missing. -/
theorem C6_counterexample :
    resolveEpisode "Show" "Show.mkv" (.int 0) (.int 5) = .rejected ∧
    derivedTitle "Show" ≠ "" ∧
    (finalSeasonEps "Show.mkv" (.int 0) (.int 5)).1 = some 0 ∧
    (finalSeasonEps "Show.mkv" (.int 0) (.int 5)).2 ≠ [] := by
  refine ⟨by decide, by decide, by decide, by decide⟩

/-- C6 (amended): an episode-classified input is rejected if and only
if, after the S..E.. regex fallback, the derived title is empty, or
the season is absent OR ZERO (a falsy present value), or the episode
list is empty. -/
theorem C6_rejection_characterisation (parentName rawName : String)
    (season episode : PyNum) :
    resolveEpisode parentName rawName season episode = .rejected ↔
      (derivedTitle parentName = "" ∨
       (finalSeasonEps rawName season episode).1 = none ∨
       (finalSeasonEps rawName season episode).1 = some 0 ∨
       (finalSeasonEps rawName season episode).2 = []) := by
  unfold resolveEpisode
  rcases hfe : finalSeasonEps rawName season episode with ⟨s1, eps1⟩
  cases s1 with
  | none => simp
  | some n =>
    by_cases ht : derivedTitle parentName = "" <;>
      by_cases hn : n = 0 <;>
      by_cases he : eps1 = [] <;>
      simp_all

/-- Counterexample to C9 as stated: an accepted Episode identity
carries the external guess's episode list verbatim — not in ascending
order and not deduplicated. -/
theorem C9_counterexample :
    resolveEpisode "Show" "x.mkv" (.int 1) (.list [2, 1, 1]) =
      .accepted "Show" 1 [2, 1, 1] ∧
    ¬ List.Pairwise (· < ·) [(2 : Int), 1, 1] := by
  refine ⟨by decide, by decide⟩

/-- C9 (amended): every accepted Episode identity has a non-empty
title, a present non-zero season, and a non-empty episode list — but
the episode list is taken verbatim from the guess (or the regex
fallback) and is not necessarily ascending or duplicate-free. -/
theorem C9_episode_identity_guarantees (parentName rawName : String)
    (season episode : PyNum) (t : String) (s : Int) (eps : List Int)
    (h : resolveEpisode parentName rawName season episode = .accepted t s eps) :
    t ≠ "" ∧ s ≠ 0 ∧ eps ≠ [] :=
  ⟨(resolveEpisode_accepted _ _ _ _ _ _ _ h).1,
   (resolveEpisode_accepted _ _ _ _ _ _ _ h).2.1,
   (resolveEpisode_accepted _ _ _ _ _ _ _ h).2.2.1⟩

/-- Witness for C9: the guarantees at a concrete accepted input. -/
theorem C9_witness :
    ("Show" : String) ≠ "" ∧ (2 : Int) ≠ 0 ∧ ([5] : List Int) ≠ [] :=
  C9_episode_identity_guarantees "Show" "Show.S02E05.mkv" .absent .absent
    "Show" 2 [5] (by decide)

/-- C8: a directory whose entries are all symlinks with dead targets
loses those links in the first pass of one sweep and is itself removed
by the second pass of the same sweep, wherever it sits in the root
entry list. -/
theorem C8_sweep_removes_dead_link_dirs (alive : String → Bool) (n : String)
    (cs : List DTree) (pre post : List DTree) (hne : cs ≠ [])
    (h : ∀ c ∈ cs, isDeadLink alive c = true) :
    pass1T alive (.dir n cs) = .dir n [] ∧
    pruneT (pass1T alive (.dir n cs)) = none ∧
    cleanup_broken_symlinks alive (pre ++ DTree.dir n cs :: post) =
      cleanup_broken_symlinks alive (pre ++ post) := by
  have h1 : pass1T alive (.dir n cs) = .dir n [] := by
    rw [pass1T, pass1L_all_dead alive cs h]
  have h2 : pruneT (pass1T alive (.dir n cs)) = none := by
    rw [h1]; rfl
  refine ⟨h1, h2, ?_⟩
  unfold cleanup_broken_symlinks
  rw [pass1L_append, pass1L_append]
  have h3 : pass1L alive (DTree.dir n cs :: post) =
      pass1T alive (.dir n cs) :: pass1L alive post := by
    rw [pass1L]
    simp [isDeadLink]
  rw [h3, pruneL_append, pruneL_append, pruneL, h2]

/-- Witness for C8: a concrete directory holding one dead link
disappears entirely in one sweep. -/
theorem C8_witness :
    pass1T (fun _ => false) (.dir "Season 01" [.link "e" "/gone"]) =
      .dir "Season 01" [] ∧
    pruneT (pass1T (fun _ => false) (.dir "Season 01" [.link "e" "/gone"])) =
      none ∧
    cleanup_broken_symlinks (fun _ => false)
        ([] ++ DTree.dir "Season 01" [.link "e" "/gone"] :: []) =
      cleanup_broken_symlinks (fun _ => false) ([] ++ []) :=
  C8_sweep_removes_dead_link_dirs (fun _ => false) "Season 01"
    [.link "e" "/gone"] [] [] (List.cons_ne_nil _ _)
    (by intro c hc; simp at hc; subst hc; rfl)

/-- linkOne never records an NFO write. -/
theorem linkOne_no_writeNfo (env : Env) (src dst parent : String) (a : FsAction)
    (ha : a ∈ (linkOne env src dst parent).actions) :
    ∀ q d, a ≠ FsAction.writeNfo q d :=
  make_symlink_no_writeNfo src dst parent (env.destState dst) env.alive
    (env.mkdirOk parent) (env.linkOk dst) a ha

/-- linkOne cannot abort when every makedirs succeeds. -/
theorem linkOne_not_aborted (env : Env) (src dst parent : String)
    (hmk : ∀ q, env.mkdirOk q = true) :
    (linkOne env src dst parent).outcome ≠ .aborted := by
  unfold linkOne
  rw [hmk parent]
  exact make_symlink_not_aborted src dst parent (env.destState dst) env.alive
    (env.linkOk dst)

/-- The subtitle loop records no NFO write. -/
theorem processSubs_no_writeNfo (env : Env) (folder b ms : String) :
    ∀ subs acts, processSubs env folder b ms subs = some acts →
      ∀ a ∈ acts, ∀ q d, a ≠ FsAction.writeNfo q d := by
  intro subs
  induction subs with
  | nil =>
    intro acts h a ha q d
    simp only [processSubs] at h
    injection h with h2
    rw [← h2] at ha
    simp at ha
  | cons s rest ih =>
    intro acts h a ha q d
    simp only [processSubs] at h
    split at h
    · cases h
    · rcases hps : processSubs env folder b ms rest with _ | acts2
      · rw [hps] at h; cases h
      · rw [hps] at h
        injection h with h2
        rw [← h2] at ha
        rcases List.mem_append.mp ha with h1 | h3
        · exact linkOne_no_writeNfo env s.path _ folder a h1 q d
        · exact ih acts2 hps a h3 q d

/-- The subtitle loop cannot abort when every makedirs succeeds. -/
theorem processSubs_isSome (env : Env) (folder b ms : String)
    (hmk : ∀ q, env.mkdirOk q = true) :
    ∀ subs, processSubs env folder b ms subs ≠ none := by
  intro subs
  induction subs with
  | nil => simp [processSubs]
  | cons s rest ih =>
    simp only [processSubs]
    split
    · next hab => exact absurd hab (linkOne_not_aborted env s.path _ folder hmk)
    · rcases hps : processSubs env folder b ms rest with _ | acts2
      · exact absurd hps ih
      · simp

/-- Every element of the per-episode NFO writes is an NFO write with
the given date. -/
theorem epNfoWrites_mem (wr : String → Bool) (folder title : String)
    (s : Int) (aired : Option String) :
    ∀ eps a, a ∈ epNfoWrites wr folder title s aired eps →
      ∃ q, a = FsAction.writeNfo q aired := by
  intro eps
  induction eps with
  | nil => intro a ha; simp [epNfoWrites] at ha
  | cons e rest ih =>
    intro a ha
    simp only [epNfoWrites] at ha
    rcases List.mem_append.mp ha with h1 | h2
    · by_cases hw : wr (folder ++ "/" ++ epNfoName title s e) = true
      · rw [if_pos hw] at h1
        simp at h1
        exact ⟨_, h1⟩
      · rw [if_neg hw] at h1
        simp at h1
    · exact ih a h2

/-- When every write succeeds, the per-episode NFO writes of a
non-empty episode list are non-empty. -/
theorem epNfoWrites_ne_nil (wr : String → Bool) (folder title : String)
    (s : Int) (aired : Option String) (eps : List Int)
    (hwr : ∀ q, wr q = true) (hne : eps ≠ []) :
    epNfoWrites wr folder title s aired eps ≠ [] := by
  cases eps with
  | nil => exact absurd rfl hne
  | cons e rest =>
    simp only [epNfoWrites, hwr (folder ++ "/" ++ epNfoName title s e), if_pos]
    simp

/-- create_nfo_file succeeds whenever its makedirs does, and its trace
is the mkdirs followed by NFO writes carrying the resolved date. -/
theorem create_nfo_file_shape (mk wr : String → Bool) (folder title : String)
    (y : Option Int) (se : Option Int) (el : Option (List Int))
    (rd : Option String) (hmk : mk folder = true) :
    ∃ w, create_nfo_file mk wr folder title y se el rd =
        some (FsAction.mkdirs folder :: w) ∧
      (∀ a ∈ w, ∃ q, a = FsAction.writeNfo q (nfoDateToUse rd y)) := by
  unfold create_nfo_file
  rw [if_pos hmk]
  cases se with
  | some s =>
    cases el with
    | some eps =>
      exact ⟨epNfoWrites wr folder title s (nfoDateToUse rd y) eps, rfl,
        fun a ha => epNfoWrites_mem wr folder title s (nfoDateToUse rd y) eps a ha⟩
    | none =>
      by_cases hw : wr (folder ++ "/" ++ title ++ " (" ++ yearStr y ++ ").nfo") = true
      · refine ⟨_, by rw [if_pos hw], ?_⟩
        intro a ha
        simp at ha
        exact ⟨_, ha⟩
      · refine ⟨[], by rw [if_neg hw], by simp⟩
  | none =>
    by_cases hw : wr (folder ++ "/" ++ title ++ " (" ++ yearStr y ++ ").nfo") = true
    · refine ⟨_, by rw [if_pos hw], ?_⟩
      intro a ha
      simp at ha
      exact ⟨_, ha⟩
    · refine ⟨[], by rw [if_neg hw], by simp⟩

/-- provisionTail only succeeds with the done outcome, a trace that is
the NFO actions followed by link actions, and no NFO write among the
link actions. -/
theorem provisionTail_cases (env : Env) (srcPath folder tn b ms : String)
    (nfo : Option (List FsAction)) (r : ProcOutcome × List FsAction)
    (h : provisionTail env srcPath folder tn b ms nfo = some r) :
    ∃ nfoActs linkActs, nfo = some nfoActs ∧
      r = (ProcOutcome.done, nfoActs ++ linkActs) ∧
      (∀ a ∈ linkActs, ∀ q d, a ≠ FsAction.writeNfo q d) := by
  unfold provisionTail at h
  cases nfo with
  | none => cases h
  | some nfoActs =>
    simp only at h
    split at h
    · cases h
    · rcases hps : processSubs env folder b ms env.subs with _ | subActs
      · rw [hps] at h; cases h
      · rw [hps] at h
        injection h with h2
        refine ⟨nfoActs,
          (linkOne env srcPath (folder ++ "/" ++ tn) folder).actions ++ subActs,
          rfl, by rw [← h2, List.append_assoc], ?_⟩
        intro a ha q d
        rcases List.mem_append.mp ha with h1 | h3
        · exact linkOne_no_writeNfo env srcPath _ folder a h1 q d
        · exact processSubs_no_writeNfo env folder b ms env.subs subActs hps a h3 q d

/-- provisionTail succeeds whenever its NFO step did and every
makedirs succeeds. -/
theorem provisionTail_isSome (env : Env) (srcPath folder tn b ms : String)
    (nfoActs : List FsAction) (hmk : ∀ q, env.mkdirOk q = true) :
    provisionTail env srcPath folder tn b ms (some nfoActs) ≠ none := by
  unfold provisionTail
  simp only
  split
  · next hab =>
    exact absurd hab (linkOne_not_aborted env srcPath _ folder hmk)
  · rcases hps : processSubs env folder b ms env.subs with _ | subActs
    · exact absurd hps (processSubs_isSome env folder b ms hmk env.subs)
    · simp

/-- process_file never aborts when every makedirs succeeds. -/
theorem process_file_isSome (env : Env) (f : FileInput) (srcPath : String)
    (hmk : ∀ q, env.mkdirOk q = true) :
    process_file env f srcPath ≠ none := by
  unfold process_file
  split
  · split
    · split
      · simp
      · split
        · simp
        · dsimp only
          rcases create_nfo_file_shape env.mkdirOk env.writeOk _ _
            f.guess.year none none
            (some (extract_release_date f.guess.date env.today)) (hmk _) with
            ⟨w, hw, _⟩
          rw [hw]
          exact provisionTail_isSome env srcPath _ _ _ f.stem _ hmk
    · split
      · split
        · simp
        · next t s eps heq =>
          dsimp only
          rcases create_nfo_file_shape env.mkdirOk env.writeOk _ _
              f.guess.year (some s) (some eps)
              (some (extract_release_date f.guess.date env.today)) (hmk _) with
            ⟨w, hw, _⟩
          rw [hw]
          exact provisionTail_isSome env srcPath _ _ _ f.stem _ hmk
      · simp
  · simp

/-- Inversion: a successful create_nfo_file trace is the mkdirs of its
folder followed by NFO writes carrying the resolved date. -/
theorem create_nfo_file_inv (mk wr : String → Bool) (folder title : String)
    (y : Option Int) (se : Option Int) (el : Option (List Int))
    (rd : Option String) (acts : List FsAction)
    (h : create_nfo_file mk wr folder title y se el rd = some acts) :
    ∃ w, acts = FsAction.mkdirs folder :: w ∧
      ∀ a ∈ w, ∃ q, a = FsAction.writeNfo q (nfoDateToUse rd y) := by
  unfold create_nfo_file at h
  split at h
  · next hmk =>
    rcases create_nfo_file_shape mk wr folder title y se el rd hmk with
      ⟨w, hw, hwm⟩
    unfold create_nfo_file at hw
    rw [if_pos hmk] at hw
    rw [hw] at h
    injection h with h2
    exact ⟨w, h2.symm, hwm⟩
  · cases h

/-- The movie-mode create_nfo_file under successful mkdir and write. -/
theorem create_nfo_file_movie (mk wr : String → Bool) (folder title : String)
    (y : Option Int) (rd : Option String)
    (hmk : mk folder = true) (hwr : ∀ q, wr q = true) :
    create_nfo_file mk wr folder title y none none rd =
      some [FsAction.mkdirs folder,
        FsAction.writeNfo (folder ++ "/" ++ title ++ " (" ++ yearStr y ++ ").nfo")
          (nfoDateToUse rd y)] := by
  unfold create_nfo_file
  rw [if_pos hmk]
  simp only [hwr _, if_pos]

/-- The episode-mode create_nfo_file under successful mkdir. -/
theorem create_nfo_file_episode (mk wr : String → Bool) (folder title : String)
    (y : Option Int) (s : Int) (eps : List Int) (rd : Option String)
    (hmk : mk folder = true) :
    create_nfo_file mk wr folder title y (some s) (some eps) rd =
      some (FsAction.mkdirs folder ::
        epNfoWrites wr folder title s (nfoDateToUse rd y) eps) := by
  unfold create_nfo_file
  rw [if_pos hmk]

/-- extract_release_date never returns the empty string when the
clock does not. -/
theorem extract_release_date_ne_empty (date : Option String) (today : String)
    (ht : today ≠ "") : extract_release_date date today ≠ "" := by
  cases date with
  | none => exact ht
  | some d =>
    by_cases hd : d = ""
    · simp only [extract_release_date]
      rw [if_pos hd]; exact ht
    · simp only [extract_release_date]
      rw [if_neg hd]; exact hd

/-- A truthy release date wins in the NFO date choice. -/
theorem nfoDateToUse_of_ne_empty (rd : String) (y : Option Int) (h : rd ≠ "") :
    nfoDateToUse (some rd) y = some rd := by
  unfold nfoDateToUse
  simp [truthyStr, h]

/-- C7: whenever identity resolution is rejected (no title for a
movie, incomplete episode info, or unknown media type), process_file
performs no filesystem mutation: its action trace is empty — no
directory creation, no symlink or unlink, no sidecar write. -/
theorem C7_rejection_no_mutation (env : Env) (f : FileInput) (srcPath : String)
    (r : ProcOutcome × List FsAction)
    (h : process_file env f srcPath = some r)
    (hr : r.1 = .noTitle ∨ r.1 = .incompleteEpisode ∨ r.1 = .unknownType) :
    r.2 = [] := by
  unfold process_file at h
  split at h
  · split at h
    · split at h
      · injection h with h2; rw [← h2]
      · split at h
        · injection h with h2; rw [← h2]
        · dsimp only at h
          rcases provisionTail_cases _ _ _ _ _ _ _ _ h with ⟨_, _, _, hre, _⟩
          rw [hre] at hr
          simp at hr
    · split at h
      · split at h
        · injection h with h2; rw [← h2]
        · dsimp only at h
          rcases provisionTail_cases _ _ _ _ _ _ _ _ h with ⟨_, _, _, hre, _⟩
          rw [hre] at hr
          simp at hr
      · injection h with h2; rw [← h2]
  · injection h with h2
    rw [← h2] at hr
    simp at hr

/-- Witness for C7: a rejected episode input with a concrete empty
trace. -/
theorem C7_witness :
    ((ProcOutcome.incompleteEpisode, ([] : List FsAction))).2 = [] :=
  C7_rejection_no_mutation envAllOk fEpReject "/s/x.mp4"
    (.incompleteEpisode, []) (by decide) (Or.inr (Or.inl rfl))

/-- Counterexample to C4 as stated: when creating the destination
directory of the first file fails, the whole scan aborts — the second
file, which on its own would be processed fine, is never reached. -/
theorem C4_counterexample :
    runScan envMkdirFail [(fMovieA, "/s/a.mkv"), (fMovieB, "/s/b.mkv")] =
      ([], true) ∧
    (process_file envMkdirFail fMovieB "/s/b.mkv").isSome = true := by
  refine ⟨by decide, by decide⟩

/-- C4 (amended): a symlink-creation failure is caught and reported
for that item only and the scan continues with the next file, but a
directory-creation failure raises an uncaught exception that aborts
the scan; when every directory creation succeeds, every file is
processed (whatever the link-creation outcomes). -/
theorem C4_mkdir_success_scan_completes (env : Env)
    (files : List (FileInput × String)) (hmk : ∀ q, env.mkdirOk q = true) :
    (runScan env files).2 = false ∧
    (runScan env files).1.length = files.length := by
  induction files with
  | nil => exact ⟨rfl, rfl⟩
  | cons fp rest ih =>
    rcases fp with ⟨f, p⟩
    rcases hpf : process_file env f p with _ | r
    · exact absurd hpf (process_file_isSome env f p hmk)
    · simp only [runScan]
      rw [hpf]
      exact ⟨ih.1, by simp [ih.2]⟩

/-- Witness for C4: a one-file scan under an all-succeeding
environment completes without aborting. -/
theorem C4_witness :
    (runScan envAllOk [(fMovieA, "/s/a.mkv")]).2 = false ∧
    (runScan envAllOk [(fMovieA, "/s/a.mkv")]).1.length =
      [(fMovieA, "/s/a.mkv")].length :=
  C4_mkdir_success_scan_completes envAllOk [(fMovieA, "/s/a.mkv")]
    (fun _ => rfl)

/-- Counterexample to C5 as stated: the guess carries no date and the
year 2020 is known, so the spec's stated order demands "2020-01-01";
the sidecar actually written carries the current date instead, because
extract_release_date falls back to today before create_nfo_file ever
consults the year. -/
theorem C5_counterexample :
    process_file envConflict fMovieA "/src/a.mkv" =
      some (.done,
        [FsAction.mkdirs "/dest/movies/A (2020)",
         FsAction.writeNfo "/dest/movies/A (2020)/A (2020).nfo"
           (some "2026-10-12")]) ∧
    specReleaseDate none (some 2020) "2026-10-12" = "2020-01-01" ∧
    ("2026-10-12" : String) ≠ "2020-01-01" := by
  refine ⟨by decide, by decide, by decide⟩

/-- C5 (amended): every sidecar written by the pipeline carries the
guess's date when present and non-empty and the current date
otherwise; the year-01-01 fabrication of create_nfo_file is dead code
in this pipeline because extract_release_date always supplies a
non-empty date first. -/
theorem C5_sidecar_date_resolution (env : Env) (f : FileInput) (srcPath : String)
    (r : ProcOutcome × List FsAction) (q : String) (d : Option String)
    (ht : env.today ≠ "") (h : process_file env f srcPath = some r)
    (hmem : FsAction.writeNfo q d ∈ r.2) :
    d = some (extract_release_date f.guess.date env.today) := by
  have hdate : ∀ (nfo : Option (List FsAction)) (folder tn b ms : String),
      provisionTail env srcPath folder tn b ms nfo = some r →
      (∀ acts, nfo = some acts →
        ∃ w, acts = FsAction.mkdirs folder :: w ∧
          ∀ a ∈ w, ∃ q2, a = FsAction.writeNfo q2
            (nfoDateToUse (some (extract_release_date f.guess.date env.today))
              f.guess.year)) →
      d = some (extract_release_date f.guess.date env.today) := by
    intro nfo folder tn b ms hpt hinv
    rcases provisionTail_cases _ _ _ _ _ _ _ _ hpt with
      ⟨nfoActs, linkActs, hnfo, hre, hlink⟩
    rcases hinv nfoActs hnfo with ⟨w, hacts, hwm⟩
    rw [hre] at hmem
    rcases List.mem_append.mp hmem with h1 | h2
    · rw [hacts] at h1
      rcases List.mem_cons.mp h1 with hmk1 | hmemw
      · cases hmk1
      · rcases hwm _ hmemw with ⟨q2, hq2⟩
        injection hq2 with e1 e2
        rw [e2, nfoDateToUse_of_ne_empty _ _
          (extract_release_date_ne_empty f.guess.date env.today ht)]
    · exact absurd rfl (hlink _ h2 q d)
  unfold process_file at h
  split at h
  · split at h
    · split at h
      · injection h with h2; rw [← h2] at hmem; simp at hmem
      · split at h
        · injection h with h2; rw [← h2] at hmem; simp at hmem
        · dsimp only at h
          exact hdate _ _ _ _ _ h
            (fun acts hacts => create_nfo_file_inv _ _ _ _ _ _ _ _ _ hacts)
    · split at h
      · split at h
        · injection h with h2; rw [← h2] at hmem; simp at hmem
        · dsimp only at h
          exact hdate _ _ _ _ _ h
            (fun acts hacts => create_nfo_file_inv _ _ _ _ _ _ _ _ _ hacts)
      · injection h with h2; rw [← h2] at hmem; simp at hmem
  · injection h with h2; rw [← h2] at hmem; simp at hmem

/-- Witness for C5: the concrete run of the counterexample input,
whose sidecar date is the current date. -/
theorem C5_witness :
    (some "2026-10-12" : Option String) =
      some (extract_release_date none "2026-10-12") :=
  C5_sidecar_date_resolution envConflict fMovieA "/src/a.mkv"
    (.done,
      [FsAction.mkdirs "/dest/movies/A (2020)",
       FsAction.writeNfo "/dest/movies/A (2020)/A (2020).nfo"
         (some "2026-10-12")])
    "/dest/movies/A (2020)/A (2020).nfo" (some "2026-10-12")
    (by decide) (by decide) (by decide)

/-- Assembling the C10 conclusion from a decomposed trace. -/
theorem C10_assemble (F : String) (w rest : List FsAction)
    (r : ProcOutcome × List FsAction)
    (hre : r = (ProcOutcome.done, (FsAction.mkdirs F :: w) ++ rest))
    (hw : w ≠ []) (hwm : ∀ a ∈ w, ∃ q d, a = FsAction.writeNfo q d)
    (hrest : ∀ a ∈ rest, ∀ q d, a ≠ FsAction.writeNfo q d) :
    ∃ folder w2 rest2, r.2 = FsAction.mkdirs folder :: (w2 ++ rest2) ∧
      w2 ≠ [] ∧
      (∀ a ∈ w2, ∃ q d, a = FsAction.writeNfo q d) ∧
      (∀ a ∈ rest2, ∀ q d, a ≠ FsAction.writeNfo q d) :=
  ⟨F, w, rest, by rw [hre]; rfl, hw, hwm, hrest⟩


/-- C10: for every input that resolves to a Movie or Episode identity
(outcome done), the trace begins with the creation of the destination
folder followed by the sidecar writes, and every symlink-related
action comes after them — so the folder and a fresh sidecar exist even
when the subsequent symlink step is conflict-skipped or its creation
fails (the theorem quantifies over arbitrary destination states and
link outcomes). -/
theorem C10_sidecar_before_symlink (env : Env) (f : FileInput) (srcPath : String)
    (r : ProcOutcome × List FsAction)
    (hmk : ∀ q, env.mkdirOk q = true) (hwr : ∀ q, env.writeOk q = true)
    (h : process_file env f srcPath = some r) (hr : r.1 = .done) :
    ∃ folder w rest, r.2 = FsAction.mkdirs folder :: (w ++ rest) ∧ w ≠ [] ∧
      (∀ a ∈ w, ∃ q d, a = FsAction.writeNfo q d) ∧
      (∀ a ∈ rest, ∀ q d, a ≠ FsAction.writeNfo q d) := by
  unfold process_file at h
  split at h
  · split at h
    · split at h
      · injection h with h2; rw [← h2] at hr; simp at hr
      · split at h
        · injection h with h2; rw [← h2] at hr; simp at hr
        · dsimp only at h
          rcases provisionTail_cases _ _ _ _ _ _ _ _ h with
            ⟨nfoActs, linkActs, hnfo, hre, hlink⟩
          rw [create_nfo_file_movie _ _ _ _ _ _ (hmk _) hwr] at hnfo
          injection hnfo with h3
          refine C10_assemble _ _ _ r (by rw [hre, ← h3]) (by simp) ?_ hlink
          intro a ha
          simp at ha
          exact ⟨_, _, ha⟩
    · split at h
      · split at h
        · injection h with h2; rw [← h2] at hr; simp at hr
        · next t s eps heq =>
          dsimp only at h
          rcases provisionTail_cases _ _ _ _ _ _ _ _ h with
            ⟨nfoActs, linkActs, hnfo, hre, hlink⟩
          rw [create_nfo_file_episode _ _ _ _ _ _ _ _ (hmk _)] at hnfo
          injection hnfo with h3
          refine C10_assemble _ _ _ r (by rw [hre, ← h3]) ?_ ?_ hlink
          · exact epNfoWrites_ne_nil _ _ _ _ _ _ hwr
              (resolveEpisode_accepted _ _ _ _ _ _ _ heq).2.2.1
          · intro a ha
            rcases epNfoWrites_mem _ _ _ _ _ _ _ ha with ⟨q2, hq2⟩
            exact ⟨q2, _, hq2⟩
      · injection h with h2; rw [← h2] at hr; simp at hr
  · injection h with h2; rw [← h2] at hr; simp at hr

/-- Witness for C10: the concrete conflicted movie run — the folder
and sidecar are created even though the symlink step was
conflict-skipped (and produced no action at all). -/
theorem C10_witness :
    ∃ folder w rest,
      ((ProcOutcome.done,
        [FsAction.mkdirs "/dest/movies/A (2020)",
         FsAction.writeNfo "/dest/movies/A (2020)/A (2020).nfo"
           (some "2026-10-12")]) : ProcOutcome × List FsAction).2 =
        FsAction.mkdirs folder :: (w ++ rest) ∧ w ≠ [] ∧
      (∀ a ∈ w, ∃ q d, a = FsAction.writeNfo q d) ∧
      (∀ a ∈ rest, ∀ q d, a ≠ FsAction.writeNfo q d) :=
  C10_sidecar_before_symlink envConflict fMovieA "/src/a.mkv"
    (.done,
      [FsAction.mkdirs "/dest/movies/A (2020)",
       FsAction.writeNfo "/dest/movies/A (2020)/A (2020).nfo"
         (some "2026-10-12")])
    (fun _ => rfl) (fun _ => rfl) (by decide) rfl

end SymlinkHelper
